import Mathlib

/-!
Shallow embedding of `PVGPpy/read/tables.py` (three table readers:
`readGSLIB`, `readPackedBinaries`, `readDelimetedFile`).

Modelling decisions, all taken from the source:
* A text file is a `String`; Python file iteration yields lines that keep the
  trailing newline character, which `splitLines` reproduces.
* `csv.reader` row splitting is modelled for unquoted input: the line
  terminator is removed, a blank line yields the empty row, otherwise the line
  is split on the single-character delimiter.  Quoting is never exercised by
  the readers.
* The numeric conversion performed by `numpy_to_vtk(..., array_type=VTK_FLOAT)`
  (elementwise string-to-float `astype`) is modelled by `pyFloat?` into `ℚ`
  (plain decimal literals with optional sign and fraction; exponent, inf and
  nan forms are not exercised by the claims).  A non-numeric field makes the
  conversion fail.
* Failures that in Python surface as exceptions (`StopIteration` from
  `next`, `ValueError` from `int`, `IndexError` from `row[i]`, `ValueError`
  from the float conversion) are modelled by `Except ReadError`.
* The binary reader works on the raw byte list of the file; its elements are
  kept as the big-endian byte chunks `struct.unpack` consumes (IEEE decoding
  of the chunks is irrelevant to every claim).  The code runs under Python 2,
  where `st_size / num_bytes` is floor division.
-/

/-- Failure modes of the readers (the taxonomy of spec section 7). -/
inductive ReadError where
  | endOfInput
  | formatError
  | parseError
  | indexError
  deriving DecidableEq

/-- A named column of values, the content handed to `vtkTable.AddColumn`. -/
structure Column (α : Type) where
  name : String
  values : List α
  deriving DecidableEq

/-- The output tabular structure: the ordered columns of a `vtkTable`. -/
structure Table (α : Type) where
  columns : List (Column α)
  deriving DecidableEq

instance {ε α : Type} [DecidableEq ε] [DecidableEq α] : DecidableEq (Except ε α) :=
  fun a b =>
    match a, b with
    | Except.error e1, Except.error e2 =>
        if h : e1 = e2 then isTrue (by rw [h])
        else isFalse (by intro hc; cases hc; exact h rfl)
    | Except.error _, Except.ok _ => isFalse (by intro hc; cases hc)
    | Except.ok _, Except.error _ => isFalse (by intro hc; cases hc)
    | Except.ok a1, Except.ok a2 =>
        if h : a1 = a2 then isTrue (by rw [h])
        else isFalse (by intro hc; cases hc; exact h rfl)

/-- Python file iteration: split a string into lines, each keeping its
trailing newline; a final fragment without a newline is still a line. -/
def splitLinesAux : List Char → List Char → List (List Char)
  | [], [] => []
  | [], acc => [acc.reverse]
  | c :: rest, acc =>
      if c = '\n' then (acc.reverse ++ ['\n']) :: splitLinesAux rest []
      else splitLinesAux rest (c :: acc)

def splitLines (s : String) : List String :=
  (splitLinesAux s.data []).map (fun cs => String.mk cs)

/-- Remove every trailing carriage return and newline, as
`str.rstrip(chr(13) + chr(10))` does. -/
def rstripCRLF (s : String) : String :=
  String.mk ((s.data.reverse.dropWhile (fun c => c = '\r' ∨ c = '\n')).reverse)

def isPySpace (c : Char) : Bool :=
  c = ' ' ∨ c = '\t' ∨ c = '\n' ∨ c = '\r' ∨ c = '\x0b' ∨ c = '\x0c'

/-- Strip leading and trailing whitespace, as Python numeric conversions do. -/
def pyStrip (s : String) : String :=
  String.mk (((s.data.dropWhile isPySpace).reverse.dropWhile isPySpace).reverse)

def natOfDigits (cs : List Char) : Nat :=
  cs.foldl (fun a c => a * 10 + (c.toNat - 48)) 0

def allDigits (cs : List Char) : Bool :=
  cs.all Char.isDigit

/-- Python `int(s)`: strip whitespace, optional sign, nonempty digit run. -/
def pyInt? (s : String) : Option Int :=
  match (pyStrip s).data with
  | '-' :: rest =>
      if rest ≠ [] ∧ allDigits rest then some (-(natOfDigits rest : Int)) else none
  | '+' :: rest =>
      if rest ≠ [] ∧ allDigits rest then some (natOfDigits rest : Int) else none
  | rest =>
      if rest ≠ [] ∧ allDigits rest then some (natOfDigits rest : Int) else none

/-- The string-to-float conversion applied to each gathered field (the
`astype` inside `numpy_to_vtk`): optional sign, decimal digits with an
optional fractional part, at least one digit overall. -/
def pyFloat? (s : String) : Option ℚ :=
  match (pyStrip s).data with
  | '-' :: rest => (pyFloatMag? rest).map (fun q => -q)
  | '+' :: rest => pyFloatMag? rest
  | rest => pyFloatMag? rest
where
  pyFloatMag? (cs : List Char) : Option ℚ :=
    let ip := cs.takeWhile Char.isDigit
    match cs.dropWhile Char.isDigit with
    | [] => if ip = [] then none else some (natOfDigits ip : ℚ)
    | '.' :: fp =>
        if allDigits fp ∧ (ip ≠ [] ∨ fp ≠ []) then
          some ((natOfDigits ip : ℚ) + (natOfDigits fp : ℚ) / (10 ^ fp.length))
        else none
    | _ => none

/-- Split a character list on every occurrence of the delimiter. -/
def splitOnCharAux (d : Char) : List Char → List Char → List String
  | [], acc => [String.mk acc.reverse]
  | c :: cs, acc =>
      if c = d then String.mk acc.reverse :: splitOnCharAux d cs []
      else splitOnCharAux d cs (c :: acc)

/-- Split a string on a single-character delimiter (empty string gives one
empty field, like Python `split` on an explicit separator). -/
def splitOnChar (d : Char) (s : String) : List String :=
  splitOnCharAux d s.data []

/-- One `csv.reader` row from one raw line (unquoted input): drop the line
terminator; a blank line is the empty row, otherwise split on the
delimiter. -/
def rowOfLine (deli : Char) (line : String) : List String :=
  let s := rstripCRLF line
  if s = "" then [] else splitOnChar deli s

/-- The effective delimiter: `if (useTab): deli` becomes a tab. -/
def effDelim (deli : Char) (useTab : Bool) : Char :=
  if useTab then '\t' else deli

/-- Repeated `next(...)` used to skip the ignored leading lines; raises
`StopIteration` (end of input) when the iterator runs dry. -/
def skipItems {α : Type} : Nat → List α → Except ReadError (List α)
  | 0, ls => Except.ok ls
  | _ + 1, [] => Except.error ReadError.endOfInput
  | n + 1, _ :: ls => skipItems n ls

/-- One `next(...)` call. -/
def pyNext {α : Type} : List α → Except ReadError (α × List α)
  | [] => Except.error ReadError.endOfInput
  | l :: ls => Except.ok (l, ls)

/-- The title loop of `readGSLIB`: `numCols` lines, each with the trailing
line ending stripped. -/
def readTitleLines : Nat → List String → Except ReadError (List String × List String)
  | 0, ls => Except.ok ([], ls)
  | _ + 1, [] => Except.error ReadError.endOfInput
  | n + 1, l :: ls =>
      match readTitleLines n ls with
      | Except.error e => Except.error e
      | Except.ok (ts, rest) => Except.ok (rstripCRLF l :: ts, rest)

/-- The column gather `for row in data: col.append(row[i])`; a row shorter
than the requested index raises `IndexError`. -/
def gatherColumn (i : Nat) : List (List String) → Except ReadError (List String)
  | [] => Except.ok []
  | r :: rs =>
      match r.get? i with
      | none => Except.error ReadError.indexError
      | some v =>
          match gatherColumn i rs with
          | Except.error e => Except.error e
          | Except.ok vs => Except.ok (v :: vs)

/-- The elementwise float conversion of one gathered column. -/
def convertColumn : List String → Except ReadError (List ℚ)
  | [] => Except.ok []
  | s :: ss =>
      match pyFloat? s with
      | none => Except.error ReadError.parseError
      | some q =>
          match convertColumn ss with
          | Except.error e => Except.error e
          | Except.ok qs => Except.ok (q :: qs)

/-- The materialization loop shared by both text readers: for the i-th title,
gather field i across every data row, convert to numbers, add the column. -/
def buildColumnsAux (rows : List (List String)) : Nat → List String → Except ReadError (List (Column ℚ))
  | _, [] => Except.ok []
  | i, t :: ts =>
      match gatherColumn i rows with
      | Except.error e => Except.error e
      | Except.ok raw =>
          match convertColumn raw with
          | Except.error e => Except.error e
          | Except.ok vals =>
              match buildColumnsAux rows (i + 1) ts with
              | Except.error e => Except.error e
              | Except.ok cols => Except.ok ({ name := t, values := vals } :: cols)

def buildColumns (titles : List String) (rows : List (List String)) : Except ReadError (List (Column ℚ)) :=
  buildColumnsAux rows 0 titles

/-- The reading phase of `readGSLIB`: skip the ignored lines, take the header
line verbatim, parse the column count, take that many title lines, and turn
the remaining lines into csv rows. -/
def parseGSLIBStructure (content : String) (deli : Char) (useTab : Bool) (numIgLns : Nat) :
    Except ReadError (String × Int × List String × List (List String)) :=
  match skipItems numIgLns (splitLines content) with
  | Except.error e => Except.error e
  | Except.ok ls0 =>
    match pyNext ls0 with
    | Except.error e => Except.error e
    | Except.ok (header, ls1) =>
      match pyNext ls1 with
      | Except.error e => Except.error e
      | Except.ok (numLine, ls2) =>
        match pyInt? numLine with
        | none => Except.error ReadError.formatError
        | some numCols =>
          match readTitleLines numCols.toNat ls2 with
          | Except.error e => Except.error e
          | Except.ok (titles, ls3) =>
              Except.ok (header, numCols, titles, ls3.map (rowOfLine (effDelim deli useTab)))

/-- The reader `readGSLIB(FileName, deli, useTab, numIgLns)` over the file content:
parse the headered structure, then materialize the declared columns; return
the table together with the header line. -/
def readGSLIB (content : String) (deli : Char) (useTab : Bool) (numIgLns : Nat) :
    Except ReadError (Table ℚ × String) :=
  match parseGSLIBStructure content deli useTab numIgLns with
  | Except.error e => Except.error e
  | Except.ok (header, _, titles, rows) =>
      match buildColumns titles rows with
      | Except.error e => Except.error e
      | Except.ok cols => Except.ok ({ columns := cols }, header)

/-- Synthesized titles `Field0`, `Field1`, ... of `readDelimetedFile`. -/
def fieldTitles (n : Nat) : List String :=
  (List.range n).map (fun i => "Field" ++ toString i)

/-- The reading phase of `readDelimetedFile`: skip rows, then either take the
first retained row as titles, or synthesize titles from its width and keep it
as data. -/
def parseDelimStructure (content : String) (deli : Char) (useTab : Bool) (hasTits : Bool)
    (numIgLns : Nat) : Except ReadError (List String × List (List String)) :=
  match skipItems numIgLns ((splitLines content).map (rowOfLine (effDelim deli useTab))) with
  | Except.error e => Except.error e
  | Except.ok rows0 =>
    if hasTits then
      match pyNext rows0 with
      | Except.error e => Except.error e
      | Except.ok (titles, rest) => Except.ok (titles, rest)
    else
      match pyNext rows0 with
      | Except.error e => Except.error e
      | Except.ok (row, rest) => Except.ok (fieldTitles row.length, row :: rest)

/-- The reader `readDelimetedFile(FileName, deli, useTab, hasTits, numIgLns)`
over the file content. -/
def readDelimetedFile (content : String) (deli : Char) (useTab : Bool) (hasTits : Bool)
    (numIgLns : Nat) : Except ReadError (Table ℚ) :=
  match parseDelimStructure content deli useTab hasTits numIgLns with
  | Except.error e => Except.error e
  | Except.ok (titles, rows) =>
      match buildColumns titles rows with
      | Except.error e => Except.error e
      | Except.ok cols => Except.ok { columns := cols }

/-- Python `os.path.basename`: the part of the path after the last slash. -/
def basename (p : String) : String :=
  (splitOnChar '/' p).getLastD ""

/-- The `tn` elements `struct.unpack` produces: consume `n` chunks of `w`
bytes each from the front of the byte list. -/
def chunksAux (w : Nat) : Nat → List Nat → List (List Nat)
  | 0, _ => []
  | n + 1, bs => bs.take w :: chunksAux w n (bs.drop w)

/-- The reader `readPackedBinaries(FileName, dblVals, dataNm)` over the raw bytes of the
file (`content`) and its path (`fileName`).  Element width is 4 bytes unless
`dblVals`; the element count is the floor `size / width` of Python 2 integer
division, so a trailing remainder of bytes is dropped; the single column is
named by `dataNm`, or by the base name of the file when `dataNm` is empty. -/
def readPackedBinaries (content : List Nat) (dblVals : Bool) (dataNm : String)
    (fileName : String) : Table (List Nat) :=
  let numBytes := if dblVals then 8 else 4
  let tn := content.length / numBytes
  let raw := chunksAux numBytes tn content
  let nm := if dataNm = "" then basename fileName else dataNm
  { columns := [{ name := nm, values := raw }] }

/-! ### Helper lemmas -/

theorem skipItems_short {α : Type} :
    ∀ (k : Nat) (ls : List α), ls.length < k → skipItems k ls = Except.error ReadError.endOfInput
  | 0, _, h => absurd h (Nat.not_lt_zero _)
  | _ + 1, [], _ => rfl
  | k + 1, _ :: ls, h => skipItems_short k ls (Nat.lt_of_succ_lt_succ h)

theorem readTitleLines_length :
    ∀ (n : Nat) (ls ts rest : List String), readTitleLines n ls = Except.ok (ts, rest) →
      ts.length = n := by
  intro n
  induction n with
  | zero => intro ls ts rest h; cases h; rfl
  | succ m ih =>
      intro ls ts rest h
      cases ls with
      | nil => exact absurd h (by simp [readTitleLines])
      | cons l ls =>
          revert h
          simp only [readTitleLines]
          cases hrec : readTitleLines m ls with
          | error e => intro h; cases h
          | ok p =>
              intro h
              cases h
              simpa using ih ls p.1 p.2 (by rw [hrec])

theorem gatherColumn_length (i : Nat) :
    ∀ (rows : List (List String)) (vs : List String),
      gatherColumn i rows = Except.ok vs → vs.length = rows.length := by
  intro rows
  induction rows with
  | nil => intro vs h; cases h; rfl
  | cons r rs ih =>
      intro vs h
      revert h
      simp only [gatherColumn]
      cases r.get? i with
      | none => intro h; cases h
      | some v =>
          cases hrec : gatherColumn i rs with
          | error e => intro h; cases h
          | ok ws => intro h; cases h; simpa using ih ws hrec

theorem convertColumn_length :
    ∀ (ss : List String) (qs : List ℚ), convertColumn ss = Except.ok qs →
      qs.length = ss.length := by
  intro ss
  induction ss with
  | nil => intro qs h; cases h; rfl
  | cons s ss ih =>
      intro qs h
      revert h
      simp only [convertColumn]
      cases pyFloat? s with
      | none => intro h; cases h
      | some q =>
          cases hrec : convertColumn ss with
          | error e => intro h; cases h
          | ok ws => intro h; cases h; simpa using ih ws hrec

theorem buildColumnsAux_names (rows : List (List String)) :
    ∀ (titles : List String) (i : Nat) (cols : List (Column ℚ)),
      buildColumnsAux rows i titles = Except.ok cols →
      cols.map Column.name = titles := by
  intro titles
  induction titles with
  | nil => intro i cols h; cases h; rfl
  | cons t ts ih =>
      intro i cols h
      simp only [buildColumnsAux] at h
      cases hraw : gatherColumn i rows with
      | error e => rw [hraw] at h; cases h
      | ok raw =>
          rw [hraw] at h
          dsimp only at h
          cases hvals : convertColumn raw with
          | error e => rw [hvals] at h; cases h
          | ok vals =>
              rw [hvals] at h
              dsimp only at h
              cases hrec : buildColumnsAux rows (i + 1) ts with
              | error e => rw [hrec] at h; cases h
              | ok cs => rw [hrec] at h; dsimp only at h; cases h; simpa using ih (i + 1) cs hrec

theorem buildColumnsAux_value_lengths (rows : List (List String)) :
    ∀ (titles : List String) (i : Nat) (cols : List (Column ℚ)),
      buildColumnsAux rows i titles = Except.ok cols →
      ∀ c ∈ cols, c.values.length = rows.length := by
  intro titles
  induction titles with
  | nil => intro i cols h; cases h; intro c hc; cases hc
  | cons t ts ih =>
      intro i cols h
      simp only [buildColumnsAux] at h
      cases hraw : gatherColumn i rows with
      | error e => rw [hraw] at h; cases h
      | ok raw =>
          rw [hraw] at h
          dsimp only at h
          cases hvals : convertColumn raw with
          | error e => rw [hvals] at h; cases h
          | ok vals =>
              rw [hvals] at h
              dsimp only at h
              cases hrec : buildColumnsAux rows (i + 1) ts with
              | error e => rw [hrec] at h; cases h
              | ok cs =>
                  rw [hrec] at h
                  dsimp only at h
                  cases h
                  intro c hc
                  rcases List.mem_cons.mp hc with hc | hc
                  · subst hc
                    simp only []
                    rw [convertColumn_length raw vals hvals,
                        gatherColumn_length i rows raw hraw]
                  · exact ih (i + 1) cs hrec c hc

theorem buildColumnsAux_nil_rows :
    ∀ (titles : List String) (i : Nat),
      buildColumnsAux [] i titles =
        Except.ok (titles.map (fun t => { name := t, values := [] })) := by
  intro titles
  induction titles with
  | nil => intro i; rfl
  | cons t ts ih => intro i; simp [buildColumnsAux, gatherColumn, convertColumn, ih]

theorem fieldTitles_length (n : Nat) : (fieldTitles n).length = n := by
  simp [fieldTitles]

theorem chunksAux_length (w : Nat) :
    ∀ (n : Nat) (bs : List Nat), (chunksAux w n bs).length = n
  | 0, _ => rfl
  | n + 1, bs => by simp [chunksAux, chunksAux_length w n]

theorem drop_cons_of_getq (l : List String) (j : Nat) (v : String)
    (h : l.get? j = some v) : l.drop j = v :: l.drop (j + 1) := by
  have hj : j < l.length := (List.get?_eq_some.mp h).choose
  rw [List.drop_eq_getElem_cons hj]
  have hg := List.get?_eq_get hj
  rw [h] at hg
  simp only [List.get_eq_getElem] at hg
  injection hg with hg2
  rw [hg2]

theorem readGSLIB_eq_build (content : String) (deli : Char) (useTab : Bool) (k : Nat)
    (hdr : String) (n : Int) (titles : List String) (rows : List (List String))
    (hs : parseGSLIBStructure content deli useTab k = Except.ok (hdr, n, titles, rows)) :
    readGSLIB content deli useTab k =
      (match buildColumns titles rows with
       | Except.error e => Except.error e
       | Except.ok cols => Except.ok ({ columns := cols }, hdr)) := by
  simp only [readGSLIB, hs]

theorem readGSLIB_ok_inv (content : String) (deli : Char) (useTab : Bool) (k : Nat)
    (t : Table ℚ) (hdr hdr2 : String) (n : Int) (titles : List String)
    (rows : List (List String))
    (hs : parseGSLIBStructure content deli useTab k = Except.ok (hdr, n, titles, rows))
    (ho : readGSLIB content deli useTab k = Except.ok (t, hdr2)) :
    buildColumns titles rows = Except.ok t.columns ∧ hdr2 = hdr := by
  rw [readGSLIB_eq_build content deli useTab k hdr n titles rows hs] at ho
  cases hb : buildColumns titles rows with
  | error e => rw [hb] at ho; cases ho
  | ok cols =>
      rw [hb] at ho
      dsimp only at ho
      simp only [Except.ok.injEq, Prod.mk.injEq] at ho
      obtain ⟨h1, h2⟩ := ho
      subst h1
      exact ⟨rfl, h2.symm⟩

theorem parseGSLIBStructure_inv (content : String) (deli : Char) (useTab : Bool) (k : Nat)
    (hdr : String) (n : Int) (titles : List String) (rows : List (List String))
    (hs : parseGSLIBStructure content deli useTab k = Except.ok (hdr, n, titles, rows)) :
    titles.length = n.toNat := by
  simp only [parseGSLIBStructure] at hs
  cases h0 : skipItems k (splitLines content) with
  | error e => rw [h0] at hs; cases hs
  | ok ls0 =>
      rw [h0] at hs
      dsimp only at hs
      cases ls0 with
      | nil => dsimp only [pyNext] at hs; cases hs
      | cons header1 ls1 =>
          dsimp only [pyNext] at hs
          cases ls1 with
          | nil => dsimp only [pyNext] at hs; cases hs
          | cons numLine ls2 =>
              dsimp only [pyNext] at hs
              cases h2 : pyInt? numLine with
              | none => rw [h2] at hs; cases hs
              | some m =>
                  rw [h2] at hs
                  dsimp only at hs
                  cases h3 : readTitleLines m.toNat ls2 with
                  | error e => rw [h3] at hs; cases hs
                  | ok p =>
                      obtain ⟨ts, ls3⟩ := p
                      rw [h3] at hs
                      dsimp only at hs
                      simp only [Except.ok.injEq, Prod.mk.injEq] at hs
                      obtain ⟨hh, hn, ht, hr⟩ := hs
                      subst hn
                      subst ht
                      exact readTitleLines_length _ _ _ _ h3

theorem parseDelimStructure_noheader (content : String) (deli : Char) (useTab : Bool) (k : Nat)
    (r : List String) (rest : List (List String))
    (hs : skipItems k ((splitLines content).map (rowOfLine (effDelim deli useTab))) =
      Except.ok (r :: rest)) :
    parseDelimStructure content deli useTab false k =
      Except.ok (fieldTitles r.length, r :: rest) := by
  simp only [parseDelimStructure, hs]
  rfl

theorem readDelimetedFile_eq_build (content : String) (deli : Char) (useTab hasTits : Bool)
    (k : Nat) (titles : List String) (rows : List (List String))
    (hs : parseDelimStructure content deli useTab hasTits k = Except.ok (titles, rows)) :
    readDelimetedFile content deli useTab hasTits k =
      (match buildColumns titles rows with
       | Except.error e => Except.error e
       | Except.ok cols => Except.ok { columns := cols }) := by
  simp only [readDelimetedFile, hs]

theorem readDelimetedFile_ok_inv (content : String) (deli : Char) (useTab hasTits : Bool)
    (k : Nat) (t : Table ℚ) (titles : List String) (rows : List (List String))
    (hs : parseDelimStructure content deli useTab hasTits k = Except.ok (titles, rows))
    (ho : readDelimetedFile content deli useTab hasTits k = Except.ok t) :
    buildColumns titles rows = Except.ok t.columns := by
  rw [readDelimetedFile_eq_build content deli useTab hasTits k titles rows hs] at ho
  cases hb : buildColumns titles rows with
  | error e => rw [hb] at ho; cases ho
  | ok cols =>
      rw [hb] at ho
      dsimp only at ho
      simp only [Except.ok.injEq] at ho
      subst ho
      rfl

theorem gatherColumn_cons_ok (j : Nat) (r : List String) (rest : List (List String))
    (raw : List String) (h : gatherColumn j (r :: rest) = Except.ok raw) :
    ∃ v raw2, r.get? j = some v ∧ gatherColumn j rest = Except.ok raw2 ∧ raw = v :: raw2 := by
  simp only [gatherColumn] at h
  cases hg : r.get? j with
  | none => rw [hg] at h; cases h
  | some v =>
      rw [hg] at h
      dsimp only at h
      cases hrec : gatherColumn j rest with
      | error e => rw [hrec] at h; cases h
      | ok vs =>
          rw [hrec] at h
          dsimp only at h
          cases h
          exact ⟨v, vs, rfl, rfl, rfl⟩

theorem convertColumn_cons_ok (v : String) (raw2 : List String) (vals : List ℚ)
    (h : convertColumn (v :: raw2) = Except.ok vals) :
    ∃ q qs, pyFloat? v = some q ∧ convertColumn raw2 = Except.ok qs ∧ vals = q :: qs := by
  simp only [convertColumn] at h
  cases hq : pyFloat? v with
  | none => rw [hq] at h; cases h
  | some q =>
      rw [hq] at h
      dsimp only at h
      cases hrec : convertColumn raw2 with
      | error e => rw [hrec] at h; cases h
      | ok qs =>
          rw [hrec] at h
          dsimp only at h
          cases h
          exact ⟨q, qs, rfl, rfl, rfl⟩

theorem buildColumnsAux_head (r : List String) (rest : List (List String)) :
    ∀ (titles : List String) (j : Nat) (cols : List (Column ℚ)),
      buildColumnsAux (r :: rest) j titles = Except.ok cols →
      cols.map (fun c => c.values.head?) = ((r.drop j).take titles.length).map pyFloat? := by
  intro titles
  induction titles with
  | nil => intro j cols h; cases h; simp
  | cons t ts ih =>
      intro j cols h
      simp only [buildColumnsAux] at h
      cases hraw : gatherColumn j (r :: rest) with
      | error e => rw [hraw] at h; cases h
      | ok raw =>
          rw [hraw] at h
          dsimp only at h
          cases hvals : convertColumn raw with
          | error e => rw [hvals] at h; cases h
          | ok vals =>
              rw [hvals] at h
              dsimp only at h
              cases hrec : buildColumnsAux (r :: rest) (j + 1) ts with
              | error e => rw [hrec] at h; cases h
              | ok cs =>
                  rw [hrec] at h
                  dsimp only at h
                  cases h
                  obtain ⟨v, raw2, hget, hg2, hvraw⟩ := gatherColumn_cons_ok j r rest raw hraw
                  subst hvraw
                  obtain ⟨q, qs, hq, hc2, hvq⟩ := convertColumn_cons_ok v raw2 vals hvals
                  subst hvq
                  rw [drop_cons_of_getq r j v hget]
                  simp only [List.length_cons, List.take_succ_cons, List.map_cons,
                    List.head?_cons]
                  rw [hq, ih (j + 1) cs hrec]

theorem gatherColumn_congr (m : Nat) :
    ∀ (ra rb : List (List String)) (j : Nat), j < m →
      ra.map (fun r => r.take m) = rb.map (fun r => r.take m) →
      gatherColumn j ra = gatherColumn j rb := by
  intro ra
  induction ra with
  | nil =>
      intro rb j hj hm
      cases rb with
      | nil => rfl
      | cons r2 rs2 => simp at hm
  | cons r rs ih =>
      intro rb j hj hm
      cases rb with
      | nil => simp at hm
      | cons r2 rs2 =>
          simp only [List.map_cons, List.cons.injEq] at hm
          obtain ⟨h1, h2⟩ := hm
          have hget : r.get? j = r2.get? j := by
            rw [← List.get?_take hj, h1, List.get?_take hj]
          simp only [gatherColumn]
          rw [hget, ih rs2 j hj h2]

theorem buildColumnsAux_congr :
    ∀ (titles : List String) (j : Nat) (ra rb : List (List String)),
      ra.map (fun r => r.take (j + titles.length)) =
        rb.map (fun r => r.take (j + titles.length)) →
      buildColumnsAux ra j titles = buildColumnsAux rb j titles := by
  intro titles
  induction titles with
  | nil => intro j ra rb hm; rfl
  | cons t ts ih =>
      intro j ra rb hm
      have hj : j < j + (t :: ts).length := by simp
      have hg := gatherColumn_congr (j + (t :: ts).length) ra rb j hj hm
      simp only [buildColumnsAux]
      rw [hg]
      cases gatherColumn j rb with
      | error e => rfl
      | ok raw =>
          dsimp only
          cases convertColumn raw with
          | error e => rfl
          | ok vals =>
              dsimp only
              have hlen : j + 1 + ts.length = j + (t :: ts).length := by
                simp only [List.length_cons]
                omega
              have hm2 : ra.map (fun r => r.take (j + 1 + ts.length)) =
                  rb.map (fun r => r.take (j + 1 + ts.length)) := by
                rw [hlen]
                exact hm
              rw [ih (j + 1) ra rb hm2]

/-! ### Claim theorems -/

/-- C1: the claim says `readPackedBinaries` fails on a file whose size is not
a multiple of the element width.  The code instead floors the element count
(Python 2 integer division), silently dropping the trailing bytes: a 7-byte
file with 4-byte floats succeeds with a single truncated element, and in
general the produced column has exactly `size / width` (floor) elements. -/
theorem c1_packed_binary_truncates :
    readPackedBinaries [0, 0, 0, 0, 0, 0, 0] false "" "data.bin" =
      { columns := [{ name := "data.bin", values := [[0, 0, 0, 0]] }] } ∧
    ∀ (bs : List Nat) (dbl : Bool) (nm fn : String),
      (readPackedBinaries bs dbl nm fn).columns.map (fun c => c.values.length) =
        [bs.length / (if dbl then 8 else 4)] := by
  constructor
  · decide
  · intro bs dbl nm fn
    simp [readPackedBinaries, chunksAux_length]

/-- C4 counterexample: on the demo input the second output value is the
verbatim header line `Demo` followed by its newline character, so the result
is not the claimed pair whose header is the bare string `Demo`. -/
theorem c4_header_counterexample :
    readGSLIB "Demo\n2\nX\nY\n1 2\n3 4\n" ' ' false 0 ≠
      Except.ok ({ columns := [{ name := "X", values := [(1 : ℚ), 3] },
                              { name := "Y", values := [(2 : ℚ), 4] }] }, "Demo") := by
  decide

/-- C4 (amended): `readGSLIB` on the demo input yields columns `X = [1, 3]`
and `Y = [2, 4]`, and returns the header line verbatim with its trailing
newline, that is the string `Demo` followed by a newline. -/
theorem c4_demo_example :
    readGSLIB "Demo\n2\nX\nY\n1 2\n3 4\n" ' ' false 0 =
      Except.ok ({ columns := [{ name := "X", values := [(1 : ℚ), 3] },
                              { name := "Y", values := [(2 : ℚ), 4] }] }, "Demo\n") := by
  decide

/-- C7 counterexample: a GSLIB file may declare the same title twice, and
the returned table then has two columns with the same name, so column names
of a returned table are not always unique. -/
theorem c7_duplicate_names_counterexample :
    readGSLIB "T\n2\nX\nX\n1 2\n" ' ' false 0 =
      Except.ok ({ columns := [{ name := "X", values := [(1 : ℚ)] },
                              { name := "X", values := [(2 : ℚ)] }] }, "T\n") ∧
    ¬ (({ columns := [{ name := "X", values := [(1 : ℚ)] },
                      { name := "X", values := [(2 : ℚ)] }] } : Table ℚ).columns.map
          Column.name).Nodup := by
  constructor
  · decide
  · decide

/-- C8: with the tab flag set, both text readers behave exactly as with the
tab flag unset and an explicit tab delimiter, for every file, every explicit
delimiter, every header flag and every skip count. -/
theorem c8_tab_overrides_delimiter (content : String) (deli : Char) (hasTits : Bool) (k : Nat) :
    readGSLIB content deli true k = readGSLIB content '\t' false k ∧
    readDelimetedFile content deli true hasTits k =
      readDelimetedFile content '\t' false hasTits k :=
  ⟨rfl, rfl⟩

/-- C9: the single output column of `readPackedBinaries` is named by the
caller-supplied name verbatim when one is supplied (nonempty), and by the
base name of the input file path otherwise. -/
theorem c9_packed_column_name (content : List Nat) (dblVals : Bool) (dataNm fileName : String) :
    (dataNm ≠ "" →
      (readPackedBinaries content dblVals dataNm fileName).columns.map Column.name = [dataNm]) ∧
    (dataNm = "" →
      (readPackedBinaries content dblVals dataNm fileName).columns.map Column.name =
        [basename fileName]) := by
  constructor
  · intro h
    simp [readPackedBinaries, h]
  · intro h
    simp [readPackedBinaries, h]

/-- C9 witness: a supplied name is used verbatim; an empty name falls back to
the base name of the path. -/
theorem c9_packed_column_name_witness :
    (readPackedBinaries [0, 0, 0, 0] false "depth" "/a/b.bin").columns.map Column.name =
      ["depth"] ∧
    (readPackedBinaries [0, 0, 0, 0] false "" "/a/b.bin").columns.map Column.name =
      ["b.bin"] :=
  ⟨(c9_packed_column_name [0, 0, 0, 0] false "depth" "/a/b.bin").1 (by decide),
   (c9_packed_column_name [0, 0, 0, 0] false "" "/a/b.bin").2 rfl⟩

/-- C5: a GSLIB input whose header section parses but that has zero data
rows succeeds, returning the header and a table with one column per declared
title (the declared count `n.toNat`), every column empty. -/
theorem c5_gslib_empty_data (content : String) (deli : Char) (useTab : Bool) (k : Nat)
    (hdr : String) (n : Int) (titles : List String)
    (hs : parseGSLIBStructure content deli useTab k = Except.ok (hdr, n, titles, [])) :
    readGSLIB content deli useTab k =
      Except.ok ({ columns := titles.map (fun s => { name := s, values := [] }) }, hdr) ∧
    titles.length = n.toNat := by
  constructor
  · rw [readGSLIB_eq_build content deli useTab k hdr n titles [] hs]
    rw [buildColumns, buildColumnsAux_nil_rows]
  · exact parseGSLIBStructure_inv content deli useTab k hdr n titles [] hs

/-- C5 witness: a file with two declared titles and no data rows yields two
empty columns. -/
theorem c5_gslib_empty_data_witness :
    readGSLIB "H\n2\nX\nY\n" ' ' false 0 =
      Except.ok ({ columns := [{ name := "X", values := ([] : List ℚ) },
                              { name := "Y", values := ([] : List ℚ) }] }, "H\n") ∧
    (["X", "Y"] : List String).length = (2 : Int).toNat :=
  c5_gslib_empty_data "H\n2\nX\nY\n" ' ' false 0 "H\n" 2 ["X", "Y"] (by decide)

/-- C6: when the skip-line count exceeds the number of lines of the file,
both text readers fail with the end-of-input error and return no table. -/
theorem c6_skip_beyond_eof (content : String) (deli : Char) (useTab hasTits : Bool) (k : Nat)
    (h : (splitLines content).length < k) :
    readGSLIB content deli useTab k = Except.error ReadError.endOfInput ∧
    readDelimetedFile content deli useTab hasTits k = Except.error ReadError.endOfInput := by
  have h1 := skipItems_short k (splitLines content) h
  have h2 : ((splitLines content).map (rowOfLine (effDelim deli useTab))).length < k := by
    simpa using h
  have h3 := skipItems_short k ((splitLines content).map (rowOfLine (effDelim deli useTab))) h2
  constructor
  · simp only [readGSLIB, parseGSLIBStructure, h1]
  · simp only [readDelimetedFile, parseDelimStructure, h3]

/-- C6 witness: skipping two lines of a one-line file fails with the
end-of-input error in both readers. -/
theorem c6_skip_beyond_eof_witness :
    (splitLines "a\n").length < 2 ∧
    readGSLIB "a\n" ' ' false 2 = Except.error ReadError.endOfInput ∧
    readDelimetedFile "a\n" ' ' false true 2 = Except.error ReadError.endOfInput :=
  ⟨by decide, c6_skip_beyond_eof "a\n" ' ' false true 2 (by decide)⟩

/-- C2: on every GSLIB input whose structure parses (integer count `n`,
`n` title lines, remaining lines as rows) and on which the reader succeeds,
the returned table has the declared number of columns, named by the titles
in file order, and every column has one value per data row. -/
theorem c2_gslib_column_shape (content : String) (deli : Char) (useTab : Bool) (k : Nat)
    (t : Table ℚ) (hdr hdr2 : String) (n : Int) (titles : List String)
    (rows : List (List String))
    (hs : parseGSLIBStructure content deli useTab k = Except.ok (hdr, n, titles, rows))
    (ho : readGSLIB content deli useTab k = Except.ok (t, hdr2)) :
    t.columns.map Column.name = titles ∧
    t.columns.length = n.toNat ∧
    ∀ c ∈ t.columns, c.values.length = rows.length := by
  obtain ⟨hb, _⟩ := readGSLIB_ok_inv content deli useTab k t hdr hdr2 n titles rows hs ho
  have hnames := buildColumnsAux_names rows titles 0 t.columns hb
  refine ⟨hnames, ?_, buildColumnsAux_value_lengths rows titles 0 t.columns hb⟩
  have hlen := congrArg List.length hnames
  rw [List.length_map] at hlen
  rw [hlen]
  exact parseGSLIBStructure_inv content deli useTab k hdr n titles rows hs

/-- C2 witness: a two-column GSLIB file with one data row produces two
columns named as declared with one value each. -/
theorem c2_gslib_column_shape_witness :
    (({ columns := [{ name := "A", values := [(1 : ℚ)] },
                    { name := "B", values := [(2 : ℚ)] }] } : Table ℚ).columns.map
        Column.name = ["A", "B"]) ∧
    (({ columns := [{ name := "A", values := [(1 : ℚ)] },
                    { name := "B", values := [(2 : ℚ)] }] } : Table ℚ).columns.length =
        (2 : Int).toNat) ∧
    ∀ c ∈ ({ columns := [{ name := "A", values := [(1 : ℚ)] },
                         { name := "B", values := [(2 : ℚ)] }] } : Table ℚ).columns,
      c.values.length = ([["1", "2"]] : List (List String)).length :=
  c2_gslib_column_shape "H\n2\nA\nB\n1 2\n" ' ' false 0
    { columns := [{ name := "A", values := [(1 : ℚ)] },
                  { name := "B", values := [(2 : ℚ)] }] }
    "H\n" "H\n" 2 ["A", "B"] [["1", "2"]] (by decide) (by decide)

/-- C3: with the header flag unset, `readDelimetedFile` synthesizes titles
`Field0`, `Field1`, ... one per field of the first retained row, and that
row is kept as the first data row: the head of every output column is the
parsed corresponding field of the first row, and every column has one value
per retained row, the first row included. -/
theorem c3_delim_noheader_first_row (content : String) (deli : Char) (useTab : Bool) (k : Nat)
    (r : List String) (rest : List (List String)) (t : Table ℚ)
    (hs : skipItems k ((splitLines content).map (rowOfLine (effDelim deli useTab))) =
      Except.ok (r :: rest))
    (ho : readDelimetedFile content deli useTab false k = Except.ok t) :
    t.columns.map Column.name = fieldTitles r.length ∧
    t.columns.map (fun c => c.values.head?) = r.map pyFloat? ∧
    ∀ c ∈ t.columns, c.values.length = rest.length + 1 := by
  have hp := parseDelimStructure_noheader content deli useTab k r rest hs
  have hb := readDelimetedFile_ok_inv content deli useTab false k t (fieldTitles r.length)
    (r :: rest) hp ho
  refine ⟨buildColumnsAux_names (r :: rest) (fieldTitles r.length) 0 t.columns hb, ?_, ?_⟩
  · have hh := buildColumnsAux_head r rest (fieldTitles r.length) 0 t.columns hb
    rw [fieldTitles_length, List.drop_zero, List.take_length] at hh
    exact hh
  · have hv := buildColumnsAux_value_lengths (r :: rest) (fieldTitles r.length) 0 t.columns hb
    simpa using hv

/-- C3 witness: a headerless two-row file keeps the first row as data under
synthesized titles. -/
theorem c3_delim_noheader_first_row_witness :
    (({ columns := [{ name := "Field0", values := [(1 : ℚ), 3] },
                    { name := "Field1", values := [(2 : ℚ), 4] }] } : Table ℚ).columns.map
        Column.name = fieldTitles (["1", "2"] : List String).length) ∧
    (({ columns := [{ name := "Field0", values := [(1 : ℚ), 3] },
                    { name := "Field1", values := [(2 : ℚ), 4] }] } : Table ℚ).columns.map
        (fun c => c.values.head?) = (["1", "2"] : List String).map pyFloat?) ∧
    ∀ c ∈ ({ columns := [{ name := "Field0", values := [(1 : ℚ), 3] },
                         { name := "Field1", values := [(2 : ℚ), 4] }] } : Table ℚ).columns,
      c.values.length = ([["3", "4"]] : List (List String)).length + 1 :=
  c3_delim_noheader_first_row "1 2\n3 4\n" ' ' false 0 ["1", "2"] [["3", "4"]]
    { columns := [{ name := "Field0", values := [(1 : ℚ), 3] },
                  { name := "Field1", values := [(2 : ℚ), 4] }] }
    (by decide) (by decide)

/-- C7 (amended): every table any of the three readers returns has columns
of identical length, named in the order the names were encountered in the
source (the parsed titles for the text readers); the names need not be
unique, since a source file may repeat a title. -/
theorem c7_column_invariants :
    (∀ (content : String) (deli : Char) (useTab : Bool) (k : Nat) (t : Table ℚ)
        (hdr hdr2 : String) (n : Int) (titles : List String) (rows : List (List String)),
        parseGSLIBStructure content deli useTab k = Except.ok (hdr, n, titles, rows) →
        readGSLIB content deli useTab k = Except.ok (t, hdr2) →
        t.columns.map Column.name = titles ∧
        ∀ c1 ∈ t.columns, ∀ c2 ∈ t.columns, c1.values.length = c2.values.length) ∧
    (∀ (content : String) (deli : Char) (useTab hasTits : Bool) (k : Nat) (t : Table ℚ)
        (titles : List String) (rows : List (List String)),
        parseDelimStructure content deli useTab hasTits k = Except.ok (titles, rows) →
        readDelimetedFile content deli useTab hasTits k = Except.ok t →
        t.columns.map Column.name = titles ∧
        ∀ c1 ∈ t.columns, ∀ c2 ∈ t.columns, c1.values.length = c2.values.length) ∧
    (∀ (content : List Nat) (dblVals : Bool) (dataNm fileName : String),
        ∀ c1 ∈ (readPackedBinaries content dblVals dataNm fileName).columns,
        ∀ c2 ∈ (readPackedBinaries content dblVals dataNm fileName).columns,
        c1.values.length = c2.values.length) := by
  refine ⟨?_, ?_, ?_⟩
  · intro content deli useTab k t hdr hdr2 n titles rows hs ho
    obtain ⟨hb, _⟩ := readGSLIB_ok_inv content deli useTab k t hdr hdr2 n titles rows hs ho
    refine ⟨buildColumnsAux_names rows titles 0 t.columns hb, ?_⟩
    intro c1 h1 c2 h2
    rw [buildColumnsAux_value_lengths rows titles 0 t.columns hb c1 h1,
        buildColumnsAux_value_lengths rows titles 0 t.columns hb c2 h2]
  · intro content deli useTab hasTits k t titles rows hs ho
    have hb := readDelimetedFile_ok_inv content deli useTab hasTits k t titles rows hs ho
    refine ⟨buildColumnsAux_names rows titles 0 t.columns hb, ?_⟩
    intro c1 h1 c2 h2
    rw [buildColumnsAux_value_lengths rows titles 0 t.columns hb c1 h1,
        buildColumnsAux_value_lengths rows titles 0 t.columns hb c2 h2]
  · intro content dblVals dataNm fileName c1 h1 c2 h2
    simp only [readPackedBinaries, List.mem_singleton] at h1 h2
    rw [h1, h2]

/-- C7 witness: the invariants at a concrete successful GSLIB read. -/
theorem c7_column_invariants_witness :
    (({ columns := [{ name := "A", values := [(1 : ℚ)] },
                    { name := "B", values := [(2 : ℚ)] }] } : Table ℚ).columns.map
        Column.name = ["A", "B"]) ∧
    ∀ c1 ∈ ({ columns := [{ name := "A", values := [(1 : ℚ)] },
                          { name := "B", values := [(2 : ℚ)] }] } : Table ℚ).columns,
    ∀ c2 ∈ ({ columns := [{ name := "A", values := [(1 : ℚ)] },
                          { name := "B", values := [(2 : ℚ)] }] } : Table ℚ).columns,
      c1.values.length = c2.values.length :=
  c7_column_invariants.1 "H\n2\nA\nB\n1 2\n" ' ' false 0
    { columns := [{ name := "A", values := [(1 : ℚ)] },
                  { name := "B", values := [(2 : ℚ)] }] }
    "H\n" "H\n" 2 ["A", "B"] [["1", "2"]] (by decide) (by decide)

/-- C10: in both text readers, fields beyond the declared or derived column
count never influence the output: if two inputs parse to the same structure
except for data-row fields past index `N - 1` (their rows agree after
truncation to `N` fields), the readers return identical results, so extra
trailing fields are silently dropped. -/
theorem c10_extra_fields_dropped :
    (∀ (deli : Char) (useTab : Bool) (k : Nat) (ca cb hdr : String) (n : Int)
        (titles : List String) (ra rb : List (List String)),
        parseGSLIBStructure ca deli useTab k = Except.ok (hdr, n, titles, ra) →
        parseGSLIBStructure cb deli useTab k = Except.ok (hdr, n, titles, rb) →
        ra.map (fun r => r.take titles.length) = rb.map (fun r => r.take titles.length) →
        readGSLIB ca deli useTab k = readGSLIB cb deli useTab k) ∧
    (∀ (deli : Char) (useTab hasTits : Bool) (k : Nat) (ca cb : String)
        (titles : List String) (ra rb : List (List String)),
        parseDelimStructure ca deli useTab hasTits k = Except.ok (titles, ra) →
        parseDelimStructure cb deli useTab hasTits k = Except.ok (titles, rb) →
        ra.map (fun r => r.take titles.length) = rb.map (fun r => r.take titles.length) →
        readDelimetedFile ca deli useTab hasTits k =
          readDelimetedFile cb deli useTab hasTits k) := by
  constructor
  · intro deli useTab k ca cb hdr n titles ra rb ha hb hm
    rw [readGSLIB_eq_build ca deli useTab k hdr n titles ra ha,
        readGSLIB_eq_build cb deli useTab k hdr n titles rb hb]
    rw [buildColumns, buildColumns,
        buildColumnsAux_congr titles 0 ra rb (by simpa using hm)]
  · intro deli useTab hasTits k ca cb titles ra rb ha hb hm
    rw [readDelimetedFile_eq_build ca deli useTab hasTits k titles ra ha,
        readDelimetedFile_eq_build cb deli useTab hasTits k titles rb hb]
    rw [buildColumns, buildColumns,
        buildColumnsAux_congr titles 0 ra rb (by simpa using hm)]

/-- C10 witness: two one-column GSLIB files whose single data row differs
only in a second, extra field read to identical results. -/
theorem c10_extra_fields_dropped_witness :
    readGSLIB "H\n1\nX\n1 2\n" ' ' false 0 = readGSLIB "H\n1\nX\n1 9\n" ' ' false 0 :=
  c10_extra_fields_dropped.1 ' ' false 0 "H\n1\nX\n1 2\n" "H\n1\nX\n1 9\n" "H\n" 1 ["X"]
    [["1", "2"]] [["1", "9"]] (by decide) (by decide) (by decide)
